import Mathlib

/-!
Shallow embedding of the session-credential core of the task-management
repository (Express + Prisma server, axios client).

Server side (src/server/src/utils/jwt.ts and the auth controller):
  * JWTs are modelled symbolically: `jwt.sign({userId}, secret, {expiresIn})`
    deterministically produces a token from the payload `{userId, iat, exp}`
    and the secret (`iat`/`exp` in whole seconds, as in the jsonwebtoken
    library), so a token is embedded as that record and string equality of
    token strings is structural equality of records.
  * The Prisma store is a record of lists; `findUnique`, `create`,
    `update`, `updateMany` and `$transaction` are embedded as list
    operations.  The `token` column is `@unique` (required by the code's
    `findUnique({ where: { token } })`), so `create` fails on a duplicate
    token and a failing `$transaction` rolls back as a whole.
Client side (src/client/src/lib/apiClient.ts): the axios response
interceptor is embedded as a step function on a coordinator state, driven
by an event trace (401 arrivals and refresh-call completions); the
client's event loop is cooperative, so one event is one atomic step.
-/

namespace TaskMgmt

/-- Milliseconds per 7 days — the refresh-token lifetime used by both the
signer (`expiresIn: '7d'`) and the stored `expiresAt`. -/
def sevenDaysMs : Nat := 7 * 24 * 60 * 60 * 1000

/-- Seconds per 7 days. -/
def sevenDaysS : Nat := 7 * 24 * 60 * 60

/-- Seconds per 15 minutes — the access-token lifetime (`expiresIn: '15m'`). -/
def fifteenMinS : Nat := 15 * 60

/-- The two signing secrets of src/server/src/utils/jwt.ts.  Only their
distinctness matters. -/
inductive Secret where
  | access
  | refresh
deriving DecidableEq, Repr

/-- A signed JWT, embedded as the data `jwt.sign` commits to: payload
`{userId}`, issued-at and expiry (whole seconds) and the signing secret.
Two `jwt.sign` calls with equal payload, clock second and secret yield the
same token string, hence structural equality models string equality. -/
structure Jwt where
  userId : String
  iat : Nat
  exp : Nat
  secret : Secret
deriving DecidableEq, Repr

/-- Decoded claims returned by a successful verify. -/
structure Claims where
  userId : String
deriving DecidableEq, Repr

inductive JwtError where
  | invalidSignature
  | expired
deriving DecidableEq, Repr

/-- `generateAccessToken` (jwt.ts line 6): sign `{userId}` with the access
secret, valid 15 minutes.  `now` is the clock in milliseconds. -/
def generateAccessToken (now : Nat) (userId : String) : Jwt :=
  { userId := userId, iat := now / 1000, exp := now / 1000 + fifteenMinS,
    secret := Secret.access }

/-- `generateRefreshToken` (jwt.ts line 10): sign `{userId}` with the
refresh secret, valid 7 days. -/
def generateRefreshToken (now : Nat) (userId : String) : Jwt :=
  { userId := userId, iat := now / 1000, exp := now / 1000 + sevenDaysS,
    secret := Secret.refresh }

/-- `verifyRefreshToken` (jwt.ts line 18): `jwt.verify` against the refresh
secret; throws on wrong signature, and on expiry once the clock reaches
`exp`. -/
def verifyRefreshToken (now : Nat) (t : Jwt) : Except JwtError Claims :=
  if t.secret ≠ Secret.refresh then Except.error JwtError.invalidSignature
  else if t.exp ≤ now / 1000 then Except.error JwtError.expired
  else Except.ok { userId := t.userId }

/-- `verifyAccessToken` (jwt.ts line 14). -/
def verifyAccessToken (now : Nat) (t : Jwt) : Except JwtError Claims :=
  if t.secret ≠ Secret.access then Except.error JwtError.invalidSignature
  else if t.exp ≤ now / 1000 then Except.error JwtError.expired
  else Except.ok { userId := t.userId }

/-- A row of the `RefreshToken` table. -/
structure RefreshTokenRecord where
  id : Nat
  token : Jwt
  userId : String
  expiresAt : Nat
  revoked : Bool
deriving DecidableEq, Repr

/-- A row of the `User` table. -/
structure User where
  id : String
  email : String
  password : String
  name : String
deriving DecidableEq, Repr

/-- The public user projection returned by the auth endpoints (never the
password hash). -/
structure UserView where
  id : String
  email : String
  name : String
deriving DecidableEq, Repr

def User.view (u : User) : UserView :=
  { id := u.id, email := u.email, name := u.name }

/-- Task status enum, `PENDING | IN_PROGRESS | COMPLETED`. -/
inductive TaskStatus where
  | PENDING
  | IN_PROGRESS
  | COMPLETED
deriving DecidableEq, Repr

/-- A row of the `Task` table (fields of interest to the toggle path). -/
structure TaskRow where
  id : String
  userId : String
  title : String
  status : TaskStatus
deriving DecidableEq, Repr

/-- The relational store: the three tables plus an id allocator for the
`RefreshToken` rows. -/
structure DB where
  refreshTokens : List RefreshTokenRecord
  users : List User
  tasks : List TaskRow
  nextId : Nat
deriving DecidableEq, Repr

/-- `prisma.refreshToken.findUnique({ where: { token } })`: exact-match
lookup on the `@unique` token column. -/
def findByToken (db : DB) (tok : Jwt) : Option RefreshTokenRecord :=
  db.refreshTokens.find? (fun r => r.token = tok)

/-- `prisma.refreshToken.create({ data: { token, userId, expiresAt } })`:
inserts a fresh row with `revoked = false`; fails (unique-constraint
violation) if the token string already exists.  The `@unique` attribute on
`token` is in the Prisma schema, which the code's `findUnique` relies on. -/
def createRefreshToken (db : DB) (tok : Jwt) (userId : String)
    (expiresAt : Nat) : Except Unit DB :=
  if db.refreshTokens.any (fun r => r.token = tok) then Except.error ()
  else Except.ok
    { db with
      refreshTokens := db.refreshTokens ++
        [{ id := db.nextId, token := tok, userId := userId,
           expiresAt := expiresAt, revoked := false }],
      nextId := db.nextId + 1 }

/-- `updateMany({ where: { userId }, data: { revoked: true } })`: the
reuse-detection mass revocation (auth controller, refresh, lines 130-133). -/
def revokeAllForUser (db : DB) (userId : String) : DB :=
  { db with
    refreshTokens := db.refreshTokens.map (fun r =>
      if r.userId = userId then { r with revoked := true } else r) }

/-- `updateMany({ where: { token } , data: { revoked: true } })` as used by
logout (lines 186-189); matching zero rows is not an error. -/
def revokeByTokenString (db : DB) (tok : Jwt) : DB :=
  { db with
    refreshTokens := db.refreshTokens.map (fun r =>
      if r.token = tok then { r with revoked := true } else r) }

/-- The `$transaction([update revoked:=true, create new record])` of the
refresh success path (lines 144-156): both effects commit together, or the
create's unique violation rolls the whole transaction back. -/
def rotateTransaction (db : DB) (oldId : Nat) (newTok : Jwt)
    (userId : String) (expiresAt : Nat) : Except Unit DB :=
  let updated : DB :=
    { db with
      refreshTokens := db.refreshTokens.map (fun r =>
        if r.id = oldId then { r with revoked := true } else r) }
  createRefreshToken updated newTok userId expiresAt

/-- Outcome of the refresh endpoint, tagged with the HTTP status the
controller sends. -/
inductive RefreshOutcome where
  /-- 200 with `{accessToken, refreshToken, user}`. -/
  | ok (accessToken refreshToken : Jwt) (user : UserView)
  /-- 401, `Invalid refresh token` / `Invalid or revoked refresh token`. -/
  | invalidToken
  /-- 404, `User not found` (line 165). -/
  | userNotFound
  /-- 500, `Internal server error` (storage fault surfaced by the catch). -/
  | internalError
deriving DecidableEq, Repr

/-- The refresh handler (auth controller lines 110-179), for a body that
passed `refreshSchema` validation.  Returns the response outcome and the
store after the call. -/
def refresh (now : Nat) (tok : Jwt) (db : DB) : RefreshOutcome × DB :=
  match verifyRefreshToken now tok with
  | Except.error _ => (RefreshOutcome.invalidToken, db)
  | Except.ok decoded =>
    match findByToken db tok with
    | none => (RefreshOutcome.invalidToken, db)
    | some storedToken =>
      if storedToken.revoked ∨ storedToken.userId ≠ decoded.userId then
        -- reuse detection: lock the user out only when the found record
        -- belongs to the claimed user
        if storedToken.userId = decoded.userId then
          (RefreshOutcome.invalidToken, revokeAllForUser db decoded.userId)
        else
          (RefreshOutcome.invalidToken, db)
      else
        let newAccessToken := generateAccessToken now storedToken.userId
        let newRefreshToken := generateRefreshToken now storedToken.userId
        match rotateTransaction db storedToken.id newRefreshToken
            storedToken.userId (now + sevenDaysMs) with
        | Except.error _ => (RefreshOutcome.internalError, db)
        | Except.ok db' =>
          match db'.users.find? (fun u => u.id = storedToken.userId) with
          | none => (RefreshOutcome.userNotFound, db')
          | some user =>
            (RefreshOutcome.ok newAccessToken newRefreshToken user.view, db')

/-- Outcome of the logout endpoint. -/
inductive LogoutOutcome where
  /-- 200 `{message: 'Logged out successfully'}`. -/
  | ok
deriving DecidableEq, Repr

/-- The logout handler (lines 181-196): `refreshToken` is optional; when
present, best-effort revoke of the matching rows; always 200. -/
def logout (tok : Option Jwt) (db : DB) : LogoutOutcome × DB :=
  match tok with
  | none => (LogoutOutcome.ok, db)
  | some t => (LogoutOutcome.ok, revokeByTokenString db t)

/-- Outcome of the register endpoint. -/
inductive RegisterOutcome where
  | ok (accessToken refreshToken : Jwt) (user : UserView)
  /-- 400 `User already exists`. -/
  | alreadyExists
  /-- 500 (the refresh-token create failed; the user row stays created —
  register has no transaction). -/
  | internalError
deriving DecidableEq, Repr

/-- `bcrypt.hash` modelled as an injective tagging of the password; the
handlers only ever compare via `bcrypt.compare`. -/
def bcryptHash (password : String) : String := String.append "bcrypt$" password

def bcryptCompare (password hash : String) : Bool :=
  bcryptHash password = hash

/-- The register handler (lines 23-69), for a validated body.  `newUserId`
stands for the id Prisma mints for the new user row. -/
def register (now : Nat) (email password name newUserId : String) (db : DB) :
    RegisterOutcome × DB :=
  if db.users.any (fun u => u.email = email) then
    (RegisterOutcome.alreadyExists, db)
  else
    let user : User := { id := newUserId, email := email,
                         password := bcryptHash password, name := name }
    let db1 : DB := { db with users := db.users ++ [user] }
    let accessToken := generateAccessToken now user.id
    let refreshToken := generateRefreshToken now user.id
    match createRefreshToken db1 refreshToken user.id (now + sevenDaysMs) with
    | Except.error _ => (RegisterOutcome.internalError, db1)
    | Except.ok db2 =>
      (RegisterOutcome.ok accessToken refreshToken user.view, db2)

/-- Outcome of the login endpoint. -/
inductive LoginOutcome where
  | ok (accessToken refreshToken : Jwt) (user : UserView)
  /-- 401 `Invalid credentials`. -/
  | invalidCredentials
  /-- 500 (refresh-token create failed). -/
  | internalError
deriving DecidableEq, Repr

/-- The login handler (lines 71-108), for a validated body. -/
def login (now : Nat) (email password : String) (db : DB) :
    LoginOutcome × DB :=
  match db.users.find? (fun u => u.email = email) with
  | none => (LoginOutcome.invalidCredentials, db)
  | some user =>
    if ¬ bcryptCompare password user.password then
      (LoginOutcome.invalidCredentials, db)
    else
      let accessToken := generateAccessToken now user.id
      let refreshToken := generateRefreshToken now user.id
      match createRefreshToken db refreshToken user.id (now + sevenDaysMs) with
      | Except.error _ => (LoginOutcome.internalError, db)
      | Except.ok db' =>
        (LoginOutcome.ok accessToken refreshToken user.view, db')

/-- One auth-endpoint invocation, for stating properties over sequences of
operations. -/
inductive Op where
  | opRegister (now : Nat) (email password name newUserId : String)
  | opLogin (now : Nat) (email password : String)
  | opRefresh (now : Nat) (tok : Jwt)
  | opLogout (tok : Option Jwt)
deriving DecidableEq, Repr

/-- The store after an operation (response projected away). -/
def applyOp (op : Op) (db : DB) : DB :=
  match op with
  | Op.opRegister now email password name newUserId =>
      (register now email password name newUserId db).2
  | Op.opLogin now email password => (login now email password db).2
  | Op.opRefresh now tok => (refresh now tok db).2
  | Op.opLogout tok => (logout tok db).2

/-- The store after a sequence of operations. -/
def applyOps (ops : List Op) (db : DB) : DB :=
  match ops with
  | [] => db
  | op :: rest => applyOps rest (applyOp op db)

/-- `statusCycle` — the dispatch table of `toggleTask`
(taskController.ts lines 153-157): PENDING → IN_PROGRESS → COMPLETED →
PENDING. -/
def statusCycle : TaskStatus → TaskStatus
  | TaskStatus.PENDING => TaskStatus.IN_PROGRESS
  | TaskStatus.IN_PROGRESS => TaskStatus.COMPLETED
  | TaskStatus.COMPLETED => TaskStatus.PENDING

/-- The toggle handler (taskController.ts lines 144-170):
`findFirst({ where: { id, userId } })`, 404 when absent, else
`update({ where: { id } }, { status: statusCycle[task.status] })`.
Returns the new status (`none` for 404) and the store. -/
def toggleTask (userId id : String) (db : DB) : Option TaskStatus × DB :=
  match db.tasks.find? (fun t => t.id = id ∧ t.userId = userId) with
  | none => (none, db)
  | some task =>
    let newStatus := statusCycle task.status
    (some newStatus,
     { db with tasks := db.tasks.map (fun t =>
         if t.id = id then { t with status := newStatus } else t) })

/-- The store after a toggle call (response projected away). -/
def toggleState (userId id : String) (db : DB) : DB :=
  (toggleTask userId id db).2

/-
Client-side refresh coordinator (src/client/src/lib/apiClient.ts).
The response interceptor runs on a cooperative event loop, so each
response arrival is one atomic step on the module-level state
`isRefreshing` / `failedQueue`.  Requests are identified by `Nat` ids;
`retried` is the set of requests whose `_retry` flag has been set;
`replays` logs every re-issued request together with the bearer token it
was re-issued with.
-/

/-- The coordinator's state.  `inFlightRefreshCalls` counts refresh POSTs
issued but not yet completed; `refreshCallCount` counts all refresh POSTs
ever issued. -/
structure ClientState where
  isRefreshing : Bool
  failedQueue : List Nat
  pendingTrigger : Option Nat
  inFlightRefreshCalls : Nat
  refreshCallCount : Nat
  retried : List Nat
  replays : List (Nat × String)
  hasRefreshToken : Bool
  redirectedToLogin : Bool
deriving DecidableEq, Repr

/-- Events the interceptor reacts to: a 401 response arriving for request
`r`, and the completion (success with an access token, or failure) of the
in-flight refresh POST. -/
inductive ClientEvent where
  | recv401 (r : Nat)
  | refreshSuccess (tok : String)
  | refreshFailure
deriving DecidableEq, Repr

/-- One interceptor step (apiClient.ts lines 81-155).

* `recv401 r` with `r` already `_retry`-flagged: the guard on line 89 is
  false, the error is re-rejected, no state change.
* otherwise, if `isRefreshing`: push onto `failedQueue` (line 93).
* otherwise set `_retry` and `isRefreshing` (lines 106-107); with no
  stored refresh token, clear tokens and redirect (lines 111-118 — note
  the early return skips the `finally`, so `isRefreshing` stays true);
  else issue the refresh POST (line 122).
* `refreshSuccess tok`: `processQueue(null, tok)` resolves every queued
  continuation, each replaying its request with `Bearer tok` (lines
  95-99, 133), then the triggering request is replayed (line 139) and
  `finally` clears `isRefreshing`.
* `refreshFailure`: queued continuations are rejected (no replay), tokens
  cleared, redirect, `finally` clears `isRefreshing` (lines 140-150). -/
def clientStep (s : ClientState) (ev : ClientEvent) : ClientState :=
  match ev with
  | ClientEvent.recv401 r =>
    if r ∈ s.retried then s
    else if s.isRefreshing then { s with failedQueue := s.failedQueue ++ [r] }
    else if ¬ s.hasRefreshToken then
      { s with
        retried := (r :: s.retried), isRefreshing := true,
        redirectedToLogin := true }
    else
      { s with
        retried := (r :: s.retried), isRefreshing := true,
        pendingTrigger := some r,
        inFlightRefreshCalls := s.inFlightRefreshCalls + 1,
        refreshCallCount := s.refreshCallCount + 1 }
  | ClientEvent.refreshSuccess tok =>
    if s.inFlightRefreshCalls = 0 then s
    else
      { s with
        replays := s.replays ++ s.failedQueue.map (fun q => (q, tok)) ++
          (s.pendingTrigger.map (fun t => (t, tok))).toList,
        failedQueue := [],
        pendingTrigger := none,
        inFlightRefreshCalls := s.inFlightRefreshCalls - 1,
        isRefreshing := false }
  | ClientEvent.refreshFailure =>
    if s.inFlightRefreshCalls = 0 then s
    else
      { s with
        failedQueue := [],
        pendingTrigger := none,
        inFlightRefreshCalls := s.inFlightRefreshCalls - 1,
        isRefreshing := false,
        hasRefreshToken := false,
        redirectedToLogin := true }

/-- Module initialisation: `isRefreshing = false`, `failedQueue = []`;
`hasTok` is whether a refresh token sits in storage. -/
def clientInit (hasTok : Bool) : ClientState :=
  { isRefreshing := false, failedQueue := [], pendingTrigger := none,
    inFlightRefreshCalls := 0, refreshCallCount := 0, retried := [],
    replays := [], hasRefreshToken := hasTok, redirectedToLogin := false }

/-- The state after a trace of events. -/
def runClient (hasTok : Bool) (evs : List ClientEvent) : ClientState :=
  evs.foldl clientStep (clientInit hasTok)

/-! Store well-formedness predicates and step-shape abstraction. -/

/-- Every refresh-token record's owner exists in the `User` table — the
referential integrity the schema's foreign key enforces and every handler
maintains. -/
def ownersExist (db : DB) : Prop :=
  ∀ r ∈ db.refreshTokens, ∃ u ∈ db.users, u.id = r.userId

/-- All allocated record ids are below the allocator. -/
def idsBounded (db : DB) : Prop :=
  ∀ r ∈ db.refreshTokens, r.id < db.nextId

/-- The store at first deployment. -/
def emptyDB : DB :=
  { refreshTokens := [], users := [], tasks := [], nextId := 0 }

/-- A per-record transformation that either leaves the record alone or
only flips `revoked` to `true`. -/
def RevokeOnly (f : RefreshTokenRecord → RefreshTokenRecord) : Prop :=
  ∀ x, f x = x ∨ f x = { x with revoked := true }

/-- How any auth operation may change the refresh-token table: a
revoke-only rewrite of the existing rows, optionally followed by one fresh
row (`revoked = false`, id taken from the allocator). -/
def StepShape (db db' : DB) : Prop :=
  ∃ f, RevokeOnly f ∧ db.nextId ≤ db'.nextId ∧
    (db'.refreshTokens = db.refreshTokens.map f ∨
     ∃ nr, nr.revoked = false ∧ nr.id = db.nextId ∧ db.nextId < db'.nextId ∧
       db'.refreshTokens = db.refreshTokens.map f ++ [nr])

/-- Coordinator invariant: never more than one refresh POST outstanding,
and an outstanding POST implies the `isRefreshing` flag is up. -/
def clientInv (s : ClientState) : Prop :=
  s.inFlightRefreshCalls ≤ 1 ∧
  (s.inFlightRefreshCalls = 1 → s.isRefreshing = true)

/-! Concrete fixtures used by witnesses and counterexamples. -/

def uA : String := "alice"

def pwA : String := "secret1"

def emailA : String := "alice@example.com"

def nameA : String := "Alice"

def userA : User :=
  { id := uA, email := emailA, password := bcryptHash pwA, name := nameA }

/-- A refresh token minted for `uA` at clock 0. -/
def tok0 : Jwt := generateRefreshToken 0 uA

def rec0 : RefreshTokenRecord :=
  { id := 0, token := tok0, userId := uA, expiresAt := sevenDaysMs,
    revoked := false }

def rec0r : RefreshTokenRecord := { rec0 with revoked := true }

/-- Store holding `uA`'s live token. -/
def db0 : DB :=
  { refreshTokens := [rec0], users := [userA], tasks := [], nextId := 1 }

/-- Store where `uA`'s token is already revoked (rotated out). -/
def db0r : DB :=
  { refreshTokens := [rec0r], users := [userA], tasks := [], nextId := 1 }

def idT1 : String := "task-1"

def titleT1 : String := "write the report"

def task1 : TaskRow :=
  { id := idT1, userId := uA, title := titleT1,
    status := TaskStatus.PENDING }

def dbT : DB :=
  { refreshTokens := [], users := [userA], tasks := [task1], nextId := 1 }

def tokS : String := "fresh-access-token"

def tokT : String := "queued-cycle-token"

/-- Trace: request 0 gets a 401 and starts a refresh; request 1 gets a
401 while it is in flight and is queued; the refresh completes. -/
def evs3 : List ClientEvent :=
  [ClientEvent.recv401 0, ClientEvent.recv401 1,
   ClientEvent.refreshSuccess tokT]

/-! Shared lemmas about the lockout path. -/

theorem revokeAllForUser_revoked (db : DB) (u : String) :
    ∀ r' ∈ (revokeAllForUser db u).refreshTokens,
      r'.userId = u → r'.revoked = true := by
  intro r' hmem hu
  rcases List.mem_map.mp hmem with ⟨x, hx, hfx⟩
  by_cases hxu : x.userId = u
  · rw [if_pos hxu] at hfx
    rw [← hfx]
  · rw [if_neg hxu] at hfx
    rw [← hfx] at hu
    exact absurd hu hxu

/-- On a reuse signal with a matching owner record (the stored row for the
presented token exists, is revoked, and is owned by the signed claim), the
refresh handler responds 401 and mass-revokes the user. -/
theorem refresh_lockout_eq (now : Nat) (tok : Jwt) (db : DB)
    (r : RefreshTokenRecord) (u : String)
    (hver : verifyRefreshToken now tok = Except.ok { userId := u })
    (hfind : findByToken db tok = some r)
    (hrev : r.revoked = true) (huid : r.userId = u) :
    refresh now tok db =
      (RefreshOutcome.invalidToken, revokeAllForUser db u) := by
  unfold refresh
  rw [hver, hfind]
  simp [hrev, huid]

/-- After a mass revocation of user `u`, any refresh presenting a token
signed for `u` is rejected. -/
theorem refresh_after_lockout_rejected (db : DB) (u : String) :
    ∀ now2 : Nat, ∀ tok2 : Jwt,
      verifyRefreshToken now2 tok2 = Except.ok { userId := u } →
      (refresh now2 tok2 (revokeAllForUser db u)).1 =
        RefreshOutcome.invalidToken := by
  intro now2 tok2 hver2
  unfold refresh
  rw [hver2]
  cases hf : findByToken (revokeAllForUser db u) tok2 with
  | none => simp
  | some r2 =>
    have hmem : r2 ∈ (revokeAllForUser db u).refreshTokens :=
      List.mem_of_find?_eq_some hf
    by_cases h2 : r2.userId = u
    · have hrev2 : r2.revoked = true :=
        revokeAllForUser_revoked db u r2 hmem h2
      simp [hrev2, h2]
    · simp [h2]

/-- C1: presenting a token whose stored record is already revoked and is
owned by the signed claim makes the refresh fail with 401
`InvalidRefreshToken`, after revoking every refresh-token record of that
user, so any later refresh presenting a token signed for that user —
including a third, still-valid one — is rejected. -/
theorem refresh_reuse_lockout (now : Nat) (tok : Jwt) (db : DB)
    (r : RefreshTokenRecord) (u : String)
    (hver : verifyRefreshToken now tok = Except.ok { userId := u })
    (hfind : findByToken db tok = some r)
    (hrev : r.revoked = true) (huid : r.userId = u) :
    (refresh now tok db).1 = RefreshOutcome.invalidToken ∧
    (∀ r' ∈ (refresh now tok db).2.refreshTokens,
       r'.userId = u → r'.revoked = true) ∧
    (∀ now2 : Nat, ∀ tok2 : Jwt,
       verifyRefreshToken now2 tok2 = Except.ok { userId := u } →
       (refresh now2 tok2 (refresh now tok db).2).1 =
         RefreshOutcome.invalidToken) := by
  have heq := refresh_lockout_eq now tok db r u hver hfind hrev huid
  rw [heq]
  exact ⟨rfl, revokeAllForUser_revoked db u,
    refresh_after_lockout_rejected db u⟩

/-- Witness for C1 at the concrete store `db0r` (user `uA`'s token rotated
out) and clock 5000 ms. -/
theorem refresh_reuse_lockout_witness :
    verifyRefreshToken 5000 tok0 = Except.ok { userId := uA } ∧
    findByToken db0r tok0 = some rec0r ∧
    rec0r.revoked = true ∧ rec0r.userId = uA ∧
    ((refresh 5000 tok0 db0r).1 = RefreshOutcome.invalidToken ∧
     (∀ r' ∈ (refresh 5000 tok0 db0r).2.refreshTokens,
        r'.userId = uA → r'.revoked = true) ∧
     (∀ now2 : Nat, ∀ tok2 : Jwt,
        verifyRefreshToken now2 tok2 = Except.ok { userId := uA } →
        (refresh now2 tok2 (refresh 5000 tok0 db0r).2).1 =
          RefreshOutcome.invalidToken)) :=
  ⟨rfl, rfl, rfl, rfl,
   refresh_reuse_lockout 5000 tok0 db0r rec0r uA rfl rfl rfl rfl⟩

/-- C4: a token failing signature verification or past its embedded expiry
is rejected with 401 before any store access: the refresh returns with the
store exactly as it was, so no record of any user is revoked. -/
theorem refresh_invalid_signature_untouched (now : Nat) (tok : Jwt)
    (db : DB) (e : JwtError)
    (hver : verifyRefreshToken now tok = Except.error e) :
    refresh now tok db = (RefreshOutcome.invalidToken, db) := by
  unfold refresh
  rw [hver]

/-- Witness for C4: `uA`'s token presented 5 seconds after its 7-day
expiry. -/
theorem refresh_invalid_signature_untouched_witness :
    verifyRefreshToken (sevenDaysMs + 5000) tok0 =
      Except.error JwtError.expired ∧
    refresh (sevenDaysMs + 5000) tok0 db0 =
      (RefreshOutcome.invalidToken, db0) :=
  ⟨rfl, refresh_invalid_signature_untouched (sevenDaysMs + 5000) tok0 db0
    JwtError.expired rfl⟩

/-- C10: when reuse-detection lockout fires for signed user `u`, the only
state change is flipping `revoked` on `u`'s refresh-token records: the
`User` and `Task` tables, the id allocator, and every record of any other
user are untouched. -/
theorem lockout_frame_confined (now : Nat) (tok : Jwt) (db : DB)
    (r : RefreshTokenRecord) (u : String)
    (hver : verifyRefreshToken now tok = Except.ok { userId := u })
    (hfind : findByToken db tok = some r)
    (hrev : r.revoked = true) (huid : r.userId = u) :
    (refresh now tok db).2.users = db.users ∧
    (refresh now tok db).2.tasks = db.tasks ∧
    (refresh now tok db).2.nextId = db.nextId ∧
    (refresh now tok db).2.refreshTokens =
      db.refreshTokens.map (fun x =>
        if x.userId = u then { x with revoked := true } else x) ∧
    ∀ x ∈ db.refreshTokens, x.userId ≠ u →
      x ∈ (refresh now tok db).2.refreshTokens := by
  have heq := refresh_lockout_eq now tok db r u hver hfind hrev huid
  rw [heq]
  refine ⟨rfl, rfl, rfl, rfl, ?_⟩
  intro x hx hxu
  exact List.mem_map.mpr ⟨x, hx, by rw [if_neg hxu]⟩

/-- Witness for C10 at `db0r` and clock 9000 ms. -/
theorem lockout_frame_confined_witness :
    verifyRefreshToken 9000 tok0 = Except.ok { userId := uA } ∧
    findByToken db0r tok0 = some rec0r ∧
    ((refresh 9000 tok0 db0r).2.users = db0r.users ∧
     (refresh 9000 tok0 db0r).2.tasks = db0r.tasks ∧
     (refresh 9000 tok0 db0r).2.nextId = db0r.nextId ∧
     (refresh 9000 tok0 db0r).2.refreshTokens =
       db0r.refreshTokens.map (fun x =>
         if x.userId = uA then { x with revoked := true } else x) ∧
     ∀ x ∈ db0r.refreshTokens, x.userId ≠ uA →
       x ∈ (refresh 9000 tok0 db0r).2.refreshTokens) :=
  ⟨rfl, rfl,
   lockout_frame_confined 9000 tok0 db0r rec0r uA rfl rfl rfl rfl⟩

/-- C2 (amended): when the presented token verifies, matches a non-revoked
record owned by the signed user, and the freshly minted refresh token does
not collide with a stored token string, the refresh commits — in one
transaction, i.e. one transition of the store — both the revocation of the
matched record and the insertion of the new record with
`expiresAt = now + 7 days`, and returns the new pair.  (The collision
proviso is forced: `jwt.sign` is deterministic, so rotating within the
clock second a stored token of the same user was minted in re-mints that
very string; the unique constraint then aborts the transaction, see
`refresh_rotation_collision_cex`.) -/
theorem refresh_rotation_atomic (now : Nat) (tok : Jwt) (db : DB)
    (r : RefreshTokenRecord) (u : String) (usr : User)
    (hver : verifyRefreshToken now tok = Except.ok { userId := u })
    (hfind : findByToken db tok = some r)
    (hrev : r.revoked = false) (huid : r.userId = u)
    (hfresh : ∀ x ∈ db.refreshTokens, x.token ≠ generateRefreshToken now u)
    (husr : db.users.find? (fun x => x.id = u) = some usr) :
    refresh now tok db =
      (RefreshOutcome.ok (generateAccessToken now u)
        (generateRefreshToken now u) usr.view,
       { db with
         refreshTokens :=
           db.refreshTokens.map (fun x =>
             if x.id = r.id then { x with revoked := true } else x) ++
           [{ id := db.nextId, token := generateRefreshToken now u,
              userId := u, expiresAt := now + sevenDaysMs,
              revoked := false }],
         nextId := db.nextId + 1 }) := by
  unfold refresh
  rw [hver, hfind]
  dsimp only
  rw [huid]
  rw [if_neg (by simp [hrev])]
  simp only [rotateTransaction, createRefreshToken]
  rw [if_neg ?hany]
  case hany =>
    intro hcon
    rcases List.any_eq_true.mp hcon with ⟨x, hx, hpx⟩
    rcases List.mem_map.mp hx with ⟨y, hy, hfy⟩
    have hyt : x.token = y.token := by
      rw [← hfy]
      by_cases h : y.id = r.id
      · rw [if_pos h]
      · rw [if_neg h]
    rw [hyt] at hpx
    exact hfresh y hy (of_decide_eq_true hpx)
  dsimp only
  rw [husr]

/-- Counterexample for C2 as stated: at clock 0, `uA`'s stored token was
itself minted at clock second 0, so the rotation re-mints the identical
token string; the create violates the unique constraint, the transaction
rolls back, and the refresh returns 500 with the store unchanged — the
matched record is not revoked and no record is inserted, although the
presented token verified and matched a non-revoked record of the signed
user. -/
theorem refresh_rotation_collision_cex :
    verifyRefreshToken 0 tok0 = Except.ok { userId := uA } ∧
    findByToken db0 tok0 = some rec0 ∧
    rec0.revoked = false ∧ rec0.userId = uA ∧
    refresh 0 tok0 db0 = (RefreshOutcome.internalError, db0) ∧
    (∀ x ∈ (refresh 0 tok0 db0).2.refreshTokens, x.revoked = false) ∧
    (refresh 0 tok0 db0).2.refreshTokens.length = 1 := by
  refine ⟨rfl, rfl, rfl, rfl, rfl, ?_, rfl⟩
  decide

/-! Structure of a successful `create` / `$transaction`, and preservation
of referential integrity by every auth operation. -/

theorem createRefreshToken_ok {db : DB} {tok : Jwt} {uid : String}
    {exp : Nat} {db' : DB}
    (h : createRefreshToken db tok uid exp = Except.ok db') :
    db' = { db with
            refreshTokens := db.refreshTokens ++
              [{ id := db.nextId, token := tok, userId := uid,
                 expiresAt := exp, revoked := false }],
            nextId := db.nextId + 1 } := by
  unfold createRefreshToken at h
  split at h
  · exact absurd h (by simp)
  · simp only [Except.ok.injEq] at h
    exact h.symm

theorem rotateTransaction_ok {db : DB} {oldId : Nat} {newTok : Jwt}
    {uid : String} {exp : Nat} {db' : DB}
    (h : rotateTransaction db oldId newTok uid exp = Except.ok db') :
    db' = { db with
            refreshTokens :=
              db.refreshTokens.map (fun x =>
                if x.id = oldId then { x with revoked := true } else x) ++
              [{ id := db.nextId, token := newTok, userId := uid,
                 expiresAt := exp, revoked := false }],
            nextId := db.nextId + 1 } := by
  unfold rotateTransaction at h
  exact createRefreshToken_ok h

/-- A revoke-only rewrite of the token table keeps owners intact. -/
theorem ownersExist_map_revoke (db : DB)
    (g : RefreshTokenRecord → RefreshTokenRecord)
    (hg : ∀ x, (g x).userId = x.userId) (h : ownersExist db) :
    ownersExist { db with refreshTokens := db.refreshTokens.map g } := by
  intro r hr
  rcases List.mem_map.mp hr with ⟨x, hx, hfx⟩
  rcases h x hx with ⟨u2, hu2, hid⟩
  refine ⟨u2, hu2, ?_⟩
  rw [← hfx, hg x, hid]

theorem ownersExist_logout (tok : Option Jwt) (db : DB)
    (h : ownersExist db) : ownersExist (logout tok db).2 := by
  cases tok with
  | none => exact h
  | some t =>
    refine ownersExist_map_revoke db _ ?_ h
    intro x
    by_cases hx : x.token = t
    · rw [if_pos hx]
    · rw [if_neg hx]

theorem ownersExist_refresh (now : Nat) (tok : Jwt) (db : DB)
    (h : ownersExist db) : ownersExist (refresh now tok db).2 := by
  unfold refresh
  cases hver : verifyRefreshToken now tok with
  | error e => exact h
  | ok decoded =>
    cases hfind : findByToken db tok with
    | none => exact h
    | some stored =>
      dsimp only
      split
      · split
        · refine ownersExist_map_revoke db _ ?_ h
          intro x
          by_cases hx : x.userId = decoded.userId
          · rw [if_pos hx]
          · rw [if_neg hx]
        · exact h
      · split
        · exact h
        · rename_i db' hrot
          have hdb' := rotateTransaction_ok hrot
          have hbody : ownersExist db' := by
            subst hdb'
            intro r hr
            rcases List.mem_append.mp hr with hl | hnew
            · rcases List.mem_map.mp hl with ⟨x, hx, hfx⟩
              rcases h x hx with ⟨u2, hu2, hid⟩
              refine ⟨u2, hu2, ?_⟩
              rw [← hfx]
              by_cases hxid : x.id = stored.id
              · rw [if_pos hxid]
                exact hid
              · rw [if_neg hxid]
                exact hid
            · have hr' := List.mem_singleton.mp hnew
              subst hr'
              have hst : stored ∈ db.refreshTokens :=
                List.mem_of_find?_eq_some hfind
              rcases h stored hst with ⟨u2, hu2, hid⟩
              exact ⟨u2, hu2, hid⟩
          split
          · exact hbody
          · exact hbody

theorem ownersExist_register (now : Nat) (email pw name uid : String)
    (db : DB) (h : ownersExist db) :
    ownersExist (register now email pw name uid db).2 := by
  unfold register
  split
  · exact h
  · dsimp only
    have hmono : ownersExist
        { db with users := db.users ++
            [{ id := uid, email := email, password := bcryptHash pw,
               name := name }] } := by
      intro r hr
      rcases h r hr with ⟨u2, hu2, hid⟩
      exact ⟨u2, List.mem_append_left _ hu2, hid⟩
    cases hcr : createRefreshToken
        { db with users := db.users ++
            [{ id := uid, email := email, password := bcryptHash pw,
               name := name }] }
        (generateRefreshToken now uid) uid (now + sevenDaysMs) with
    | error e => exact hmono
    | ok db2 =>
      have hdb2 := createRefreshToken_ok hcr
      subst hdb2
      intro r hr
      rcases List.mem_append.mp hr with hl | hnew
      · exact hmono r hl
      · have hr' := List.mem_singleton.mp hnew
        subst hr'
        exact ⟨_, List.mem_append_right _ (List.mem_singleton.mpr rfl), rfl⟩

theorem ownersExist_login (now : Nat) (email pw : String) (db : DB)
    (h : ownersExist db) : ownersExist (login now email pw db).2 := by
  unfold login
  cases hfind : db.users.find? (fun u => u.email = email) with
  | none => exact h
  | some user =>
    dsimp only
    split
    · exact h
    · cases hcr : createRefreshToken db (generateRefreshToken now user.id)
          user.id (now + sevenDaysMs) with
      | error e => exact h
      | ok db' =>
        have hdb' := createRefreshToken_ok hcr
        subst hdb'
        intro r hr
        rcases List.mem_append.mp hr with hl | hnew
        · exact h r hl
        · have hr' := List.mem_singleton.mp hnew
          subst hr'
          exact ⟨user, List.mem_of_find?_eq_some hfind, rfl⟩

theorem ownersExist_applyOp (op : Op) (db : DB) (h : ownersExist db) :
    ownersExist (applyOp op db) := by
  cases op with
  | opRegister now email pw name uid => exact ownersExist_register now email pw name uid db h
  | opLogin now email pw => exact ownersExist_login now email pw db h
  | opRefresh now tok => exact ownersExist_refresh now tok db h
  | opLogout tok => exact ownersExist_logout tok db h

theorem ownersExist_applyOps (ops : List Op) (db : DB)
    (h : ownersExist db) : ownersExist (applyOps ops db) := by
  induction ops generalizing db with
  | nil => exact h
  | cons op rest ih => exact ih (applyOp op db) (ownersExist_applyOp op db h)

theorem ownersExist_emptyDB : ownersExist emptyDB := by
  intro r hr
  exact absurd hr (List.not_mem_nil r)

/-- C3: on a store with referential integrity (true of every store
reachable from deployment — `ownersExist_applyOps`, `ownersExist_emptyDB`),
a validated refresh request either succeeds (200) or fails as 401
`InvalidRefreshToken`, storage faults surfacing as generic 500; the 404
`User not found` branch is unreachable.  And whenever the outcome is not
success, no rotation has been committed: no record was inserted and the
allocator did not move. -/
theorem refresh_failure_401_no_partial_rotation (now : Nat) (tok : Jwt)
    (db : DB) (h : ownersExist db) :
    ((refresh now tok db).1 = RefreshOutcome.invalidToken ∨
     (refresh now tok db).1 = RefreshOutcome.internalError ∨
     ∃ a rt uv, (refresh now tok db).1 = RefreshOutcome.ok a rt uv) ∧
    ((∀ a rt uv, (refresh now tok db).1 ≠ RefreshOutcome.ok a rt uv) →
      (refresh now tok db).2.refreshTokens.length =
        db.refreshTokens.length ∧
      (refresh now tok db).2.nextId = db.nextId) := by
  unfold refresh
  cases hver : verifyRefreshToken now tok with
  | error e => exact ⟨Or.inl rfl, fun _ => ⟨rfl, rfl⟩⟩
  | ok decoded =>
    cases hfind : findByToken db tok with
    | none => exact ⟨Or.inl rfl, fun _ => ⟨rfl, rfl⟩⟩
    | some stored =>
      dsimp only
      split
      · split
        · refine ⟨Or.inl rfl, fun _ => ⟨?_, rfl⟩⟩
          exact List.length_map _ _
        · exact ⟨Or.inl rfl, fun _ => ⟨rfl, rfl⟩⟩
      · split
        · exact ⟨Or.inr (Or.inl rfl), fun _ => ⟨rfl, rfl⟩⟩
        · rename_i db' hrot
          have hdb' := rotateTransaction_ok hrot
          have hst : stored ∈ db.refreshTokens :=
            List.mem_of_find?_eq_some hfind
          rcases h stored hst with ⟨u2, hu2, hid⟩
          have husers : db'.users = db.users := by rw [hdb']
          have hsome : (db'.users.find? (fun x =>
              x.id = stored.userId)).isSome := by
            rw [husers]
            rw [List.find?_isSome]
            exact ⟨u2, hu2, by simp [hid]⟩
          cases hfu : db'.users.find? (fun x => x.id = stored.userId) with
          | none =>
            rw [hfu] at hsome
            exact absurd hsome (by simp)
          | some user =>
            refine ⟨Or.inr (Or.inr ⟨_, _, _, rfl⟩), fun hno => ?_⟩
            exact absurd rfl (hno _ _ _)

/-- Witness for C3 on the reachable store `db0` with an expired token. -/
theorem refresh_failure_401_no_partial_rotation_witness :
    ownersExist db0 ∧
    (((refresh (sevenDaysMs + 5000) tok0 db0).1 =
        RefreshOutcome.invalidToken ∨
      (refresh (sevenDaysMs + 5000) tok0 db0).1 =
        RefreshOutcome.internalError ∨
      ∃ a rt uv, (refresh (sevenDaysMs + 5000) tok0 db0).1 =
        RefreshOutcome.ok a rt uv) ∧
     ((∀ a rt uv, (refresh (sevenDaysMs + 5000) tok0 db0).1 ≠
         RefreshOutcome.ok a rt uv) →
       (refresh (sevenDaysMs + 5000) tok0 db0).2.refreshTokens.length =
         db0.refreshTokens.length ∧
       (refresh (sevenDaysMs + 5000) tok0 db0).2.nextId = db0.nextId)) :=
  ⟨by unfold ownersExist; decide,
   refresh_failure_401_no_partial_rotation (sevenDaysMs + 5000) tok0 db0
     (by unfold ownersExist; decide)⟩

/-! Step-shape lemmas: every auth operation rewrites the token table by a
revoke-only map plus at most one fresh row. -/

theorem revokeOnly_id : RevokeOnly (fun x => x) := fun _ => Or.inl rfl

theorem revokeOnly_if (p : RefreshTokenRecord → Prop)
    [DecidablePred p] :
    RevokeOnly (fun x => if p x then { x with revoked := true } else x) := by
  intro x
  dsimp only
  by_cases h : p x
  · rw [if_pos h]
    exact Or.inr rfl
  · rw [if_neg h]
    exact Or.inl rfl

theorem stepShape_same (db db' : DB)
    (ht : db'.refreshTokens = db.refreshTokens)
    (hn : db'.nextId = db.nextId) : StepShape db db' := by
  refine ⟨fun x => x, revokeOnly_id, le_of_eq hn.symm, Or.inl ?_⟩
  rw [ht]
  exact (List.map_id' db.refreshTokens).symm

theorem stepShape_applyOp (op : Op) (db : DB) :
    StepShape db (applyOp op db) := by
  cases op with
  | opRegister now email pw name uid =>
    dsimp only [applyOp]
    unfold register
    split
    · exact stepShape_same db db rfl rfl
    · dsimp only
      split
      · exact stepShape_same db _ rfl rfl
      · rename_i db2 hcr
        have h2 := createRefreshToken_ok hcr
        subst h2
        refine ⟨fun x => x, revokeOnly_id, Nat.le_succ db.nextId,
          Or.inr ⟨{ id := db.nextId,
                    token := generateRefreshToken now uid, userId := uid,
                    expiresAt := now + sevenDaysMs, revoked := false },
                  rfl, rfl, Nat.lt_succ_self db.nextId, ?_⟩⟩
        dsimp only
        rw [List.map_id' db.refreshTokens]
  | opLogin now email pw =>
    dsimp only [applyOp]
    unfold login
    cases hfind : db.users.find? (fun u => u.email = email) with
    | none => exact stepShape_same db db rfl rfl
    | some user =>
      dsimp only
      split
      · exact stepShape_same db db rfl rfl
      · split
        · exact stepShape_same db db rfl rfl
        · rename_i db2 hcr
          have h2 := createRefreshToken_ok hcr
          subst h2
          refine ⟨fun x => x, revokeOnly_id, Nat.le_succ db.nextId,
            Or.inr ⟨{ id := db.nextId,
                      token := generateRefreshToken now user.id,
                      userId := user.id,
                      expiresAt := now + sevenDaysMs, revoked := false },
                    rfl, rfl, Nat.lt_succ_self db.nextId, ?_⟩⟩
          dsimp only
          rw [List.map_id' db.refreshTokens]
  | opRefresh now tok =>
    dsimp only [applyOp]
    unfold refresh
    cases hver : verifyRefreshToken now tok with
    | error e => exact stepShape_same db db rfl rfl
    | ok decoded =>
      cases hfind : findByToken db tok with
      | none => exact stepShape_same db db rfl rfl
      | some stored =>
        dsimp only
        split
        · split
          · exact ⟨_, revokeOnly_if (fun x => x.userId = decoded.userId),
              le_refl _, Or.inl rfl⟩
          · exact stepShape_same db db rfl rfl
        · split
          · exact stepShape_same db db rfl rfl
          · rename_i db' hrot
            have h2 := rotateTransaction_ok hrot
            subst h2
            have hsh : StepShape db
                { db with
                  refreshTokens :=
                    db.refreshTokens.map (fun x =>
                      if x.id = stored.id then { x with revoked := true }
                      else x) ++
                    [{ id := db.nextId,
                       token := generateRefreshToken now stored.userId,
                       userId := stored.userId,
                       expiresAt := now + sevenDaysMs, revoked := false }],
                  nextId := db.nextId + 1 } :=
              ⟨_, revokeOnly_if (fun x => x.id = stored.id),
                Nat.le_succ db.nextId,
                Or.inr ⟨{ id := db.nextId,
                          token := generateRefreshToken now stored.userId,
                          userId := stored.userId,
                          expiresAt := now + sevenDaysMs,
                          revoked := false },
                        rfl, rfl, Nat.lt_succ_self db.nextId, rfl⟩⟩
            split
            · exact hsh
            · exact hsh
  | opLogout tok =>
    dsimp only [applyOp]
    cases tok with
    | none => exact stepShape_same db db rfl rfl
    | some t =>
      exact ⟨_, revokeOnly_if (fun x => x.token = t), le_refl _, Or.inl rfl⟩

theorem stepShape_frame {db db' : DB} (h : StepShape db db') :
    ∀ r' ∈ db'.refreshTokens,
      (∃ x ∈ db.refreshTokens, x.id = r'.id ∧
        (r' = x ∨ r' = { x with revoked := true })) ∨
      r'.revoked = false := by
  rcases h with ⟨f, hf, _, hcase | ⟨nr, hnr, _, _, hcase⟩⟩
  · intro r' hr'
    rw [hcase] at hr'
    rcases List.mem_map.mp hr' with ⟨x, hx, hfx⟩
    rcases hf x with hfl | hfr
    · rw [hfl] at hfx
      exact Or.inl ⟨x, hx, by rw [hfx], Or.inl hfx.symm⟩
    · rw [hfr] at hfx
      exact Or.inl ⟨x, hx, by rw [← hfx], Or.inr hfx.symm⟩
  · intro r' hr'
    rw [hcase] at hr'
    rcases List.mem_append.mp hr' with hl | hsing
    · rcases List.mem_map.mp hl with ⟨x, hx, hfx⟩
      rcases hf x with hfl | hfr
      · rw [hfl] at hfx
        exact Or.inl ⟨x, hx, by rw [hfx], Or.inl hfx.symm⟩
      · rw [hfr] at hfx
        exact Or.inl ⟨x, hx, by rw [← hfx], Or.inr hfx.symm⟩
    · have h' := List.mem_singleton.mp hsing
      subst h'
      exact Or.inr hnr

theorem stepShape_idsBounded {db db' : DB} (h : StepShape db db')
    (hb : idsBounded db) : idsBounded db' := by
  rcases h with ⟨f, hf, hle, hcase | ⟨nr, _, hnrid, hlt, hcase⟩⟩
  · intro r' hr'
    rw [hcase] at hr'
    rcases List.mem_map.mp hr' with ⟨x, hx, hfx⟩
    have hxid : r'.id = x.id := by
      rw [← hfx]
      rcases hf x with hfl | hfr
      · rw [hfl]
      · rw [hfr]
    rw [hxid]
    exact lt_of_lt_of_le (hb x hx) hle
  · intro r' hr'
    rw [hcase] at hr'
    rcases List.mem_append.mp hr' with hl | hsing
    · rcases List.mem_map.mp hl with ⟨x, hx, hfx⟩
      have hxid : r'.id = x.id := by
        rw [← hfx]
        rcases hf x with hfl | hfr
        · rw [hfl]
        · rw [hfr]
      rw [hxid]
      exact lt_of_lt_of_le (hb x hx) (le_of_lt hlt)
    · have h' := List.mem_singleton.mp hsing
      subst h'
      rw [hnrid]
      exact hlt

theorem stepShape_revokedPersist {db db' : DB} (h : StepShape db db')
    (i : Nat) (hi : i < db.nextId)
    (hrev : ∀ x ∈ db.refreshTokens, x.id = i → x.revoked = true) :
    ∀ x ∈ db'.refreshTokens, x.id = i → x.revoked = true := by
  rcases h with ⟨f, hf, _, hcase | ⟨nr, _, hnrid, _, hcase⟩⟩
  · intro r' hr' hi'
    rw [hcase] at hr'
    rcases List.mem_map.mp hr' with ⟨x, hx, hfx⟩
    rcases hf x with hfl | hfr
    · rw [hfl] at hfx
      rw [← hfx]
      exact hrev x hx (by rw [hfx]; exact hi')
    · rw [hfr] at hfx
      rw [← hfx]
  · intro r' hr' hi'
    rw [hcase] at hr'
    rcases List.mem_append.mp hr' with hl | hsing
    · rcases List.mem_map.mp hl with ⟨x, hx, hfx⟩
      rcases hf x with hfl | hfr
      · rw [hfl] at hfx
        rw [← hfx]
        exact hrev x hx (by rw [hfx]; exact hi')
      · rw [hfr] at hfx
        rw [← hfx]
    · have h' := List.mem_singleton.mp hsing
      subst h'
      rw [hi'] at hnrid
      omega

theorem stepShape_nextId_le {db db' : DB} (h : StepShape db db') :
    db.nextId ≤ db'.nextId := by
  rcases h with ⟨f, _, hle, _⟩
  exact hle

theorem applyOps_revokedPersist (ops : List Op) (db : DB) (i : Nat)
    (hb : idsBounded db) (hi : i < db.nextId)
    (hrev : ∀ x ∈ db.refreshTokens, x.id = i → x.revoked = true) :
    ∀ x ∈ (applyOps ops db).refreshTokens, x.id = i → x.revoked = true := by
  induction ops generalizing db with
  | nil => exact hrev
  | cons op rest ih =>
    have hs := stepShape_applyOp op db
    exact ih (applyOp op db) (stepShape_idsBounded hs hb)
      (lt_of_lt_of_le hi (stepShape_nextId_le hs))
      (stepShape_revokedPersist hs i hi hrev)

/-- C5: revocation is monotone.  Single step: any auth operation
(register, login, refresh, logout) maps each resulting record either to an
unchanged pre-existing record, to a pre-existing record with only
`revoked` flipped to `true`, or to a brand-new record with
`revoked = false`.  Sequence: once a record is revoked, in a store with
distinct, allocator-bounded record ids, every record carrying its id stays
revoked under every sequence of operations. -/
theorem revocation_monotone (ops : List Op) (op : Op) (db : DB)
    (r : RefreshTokenRecord)
    (hWF : db.refreshTokens.Pairwise (fun a b => a.id ≠ b.id))
    (hb : idsBounded db)
    (hr : r ∈ db.refreshTokens) (hrev : r.revoked = true) :
    (∀ r' ∈ (applyOp op db).refreshTokens,
       (∃ x ∈ db.refreshTokens, x.id = r'.id ∧
         (r' = x ∨ r' = { x with revoked := true })) ∨
       r'.revoked = false) ∧
    (∀ r' ∈ (applyOps ops db).refreshTokens,
       r'.id = r.id → r'.revoked = true) := by
  constructor
  · exact stepShape_frame (stepShape_applyOp op db)
  · have hsymm : Symmetric
        (fun a b : RefreshTokenRecord => a.id ≠ b.id) := by
      intro a b hab hba
      exact hab hba.symm
    have hinit : ∀ x ∈ db.refreshTokens, x.id = r.id → x.revoked = true := by
      intro x hx hxid
      by_cases hxr : x = r
      · rw [hxr]
        exact hrev
      · exact absurd hxid (hWF.forall hsymm hx hr hxr)
    exact applyOps_revokedPersist ops db r.id hb (hb r hr) hinit

/-- Witness for C5 on `db0r` with a logout-then-refresh sequence. -/
theorem revocation_monotone_witness :
    db0r.refreshTokens.Pairwise (fun a b => a.id ≠ b.id) ∧
    idsBounded db0r ∧ rec0r ∈ db0r.refreshTokens ∧ rec0r.revoked = true ∧
    ((∀ r' ∈ (applyOp (Op.opLogout (some tok0)) db0r).refreshTokens,
       (∃ x ∈ db0r.refreshTokens, x.id = r'.id ∧
         (r' = x ∨ r' = { x with revoked := true })) ∨
       r'.revoked = false) ∧
     (∀ r' ∈ (applyOps [Op.opLogout (some tok0), Op.opRefresh 5000 tok0]
         db0r).refreshTokens,
       r'.id = rec0r.id → r'.revoked = true)) :=
  ⟨by decide, by unfold idsBounded; decide, by decide, rfl,
   revocation_monotone [Op.opLogout (some tok0), Op.opRefresh 5000 tok0]
     (Op.opLogout (some tok0)) db0r rec0r (by decide)
     (by unfold idsBounded; decide) (by decide) rfl⟩

/-- Witness for C2 (amended) at clock 5000 ms on `db0`. -/
theorem refresh_rotation_atomic_witness :
    (∀ x ∈ db0.refreshTokens, x.token ≠ generateRefreshToken 5000 uA) ∧
    db0.users.find? (fun x => x.id = uA) = some userA ∧
    refresh 5000 tok0 db0 =
      (RefreshOutcome.ok (generateAccessToken 5000 uA)
        (generateRefreshToken 5000 uA) userA.view,
       { db0 with
         refreshTokens :=
           db0.refreshTokens.map (fun x =>
             if x.id = rec0.id then { x with revoked := true } else x) ++
           [{ id := db0.nextId, token := generateRefreshToken 5000 uA,
              userId := uA, expiresAt := 5000 + sevenDaysMs,
              revoked := false }],
         nextId := db0.nextId + 1 }) :=
  ⟨by decide, rfl,
   refresh_rotation_atomic 5000 tok0 db0 rec0 uA userA rfl rfl rfl rfl
     (by decide) rfl⟩

/-- C8: logout always answers 200 — with a token matching no record, an
already-revoked token, the same token twice, or no token at all — it is
idempotent, and its only possible state change is setting `revoked = true`
on the records whose token string equals the supplied one; users, tasks
and the id allocator are untouched. -/
theorem logout_idempotent_total (tok : Option Jwt) (db : DB) :
    (logout tok db).1 = LogoutOutcome.ok ∧
    logout tok (logout tok db).2 = (LogoutOutcome.ok, (logout tok db).2) ∧
    (logout tok db).2.users = db.users ∧
    (logout tok db).2.tasks = db.tasks ∧
    (logout tok db).2.nextId = db.nextId ∧
    (∀ r' ∈ (logout tok db).2.refreshTokens,
       ∃ x ∈ db.refreshTokens, x.id = r'.id ∧
         (r' = x ∨ (tok = some x.token ∧
                    r' = { x with revoked := true }))) := by
  cases tok with
  | none =>
    refine ⟨rfl, rfl, rfl, rfl, rfl, ?_⟩
    intro r' hr'
    exact ⟨r', hr', rfl, Or.inl rfl⟩
  | some t =>
    refine ⟨rfl, ?_, rfl, rfl, rfl, ?_⟩
    · dsimp only [logout, revokeByTokenString]
      rw [Prod.mk.injEq]
      refine ⟨rfl, ?_⟩
      rw [DB.mk.injEq]
      refine ⟨?_, rfl, rfl, rfl⟩
      rw [List.map_map]
      apply List.map_congr_left
      intro x _
      by_cases hx : x.token = t
      · rw [Function.comp_apply, if_pos hx]
        have hx' : ({ x with revoked := true } :
            RefreshTokenRecord).token = t := hx
        rw [if_pos hx']
      · rw [Function.comp_apply, if_neg hx, if_neg hx]
    · intro r' hr'
      rcases List.mem_map.mp hr' with ⟨x, hx, hfx⟩
      by_cases hxt : x.token = t
      · rw [if_pos hxt] at hfx
        exact ⟨x, hx, by rw [← hfx], Or.inr ⟨by rw [hxt], hfx.symm⟩⟩
      · rw [if_neg hxt] at hfx
        exact ⟨x, hx, by rw [hfx], Or.inl hfx.symm⟩

/-! Toggle-path helper lemmas. -/

theorem toggle_tasks_map_find (id userId : String) (s : TaskStatus)
    (l : List TaskRow) :
    (l.map (fun t => if t.id = id then { t with status := s } else t)).find?
        (fun t => t.id = id ∧ t.userId = userId) =
      (l.find? (fun t => t.id = id ∧ t.userId = userId)).map
        (fun t => if t.id = id then { t with status := s } else t) := by
  rw [List.find?_map]
  have hfun : ((fun t : TaskRow => decide (t.id = id ∧ t.userId = userId)) ∘
      (fun t : TaskRow => if t.id = id then { t with status := s } else t)) =
      (fun t : TaskRow => decide (t.id = id ∧ t.userId = userId)) := by
    funext x
    by_cases hx : x.id = id
    · simp [hx]
    · simp [hx]
  rw [hfun]

theorem toggle_map_map (id : String) (s1 s2 : TaskStatus)
    (l : List TaskRow) :
    (l.map (fun t => if t.id = id then { t with status := s1 } else t)).map
        (fun t => if t.id = id then { t with status := s2 } else t) =
      l.map (fun t => if t.id = id then { t with status := s2 } else t) := by
  rw [List.map_map]
  apply List.map_congr_left
  intro x _
  by_cases hx : x.id = id
  · simp [hx]
  · simp [hx]

theorem toggleState_found (db : DB) (userId id : String) (t : TaskRow)
    (hf : db.tasks.find? (fun x => x.id = id ∧ x.userId = userId) =
      some t) :
    toggleState userId id db =
      { db with tasks := db.tasks.map (fun x : TaskRow =>
          if x.id = id then { x with status := statusCycle t.status }
          else x) } := by
  unfold toggleState toggleTask
  rw [hf]

theorem toggleState_found_find (db : DB) (userId id : String) (t : TaskRow)
    (htid : t.id = id)
    (hf : db.tasks.find? (fun x => x.id = id ∧ x.userId = userId) =
      some t) (s : TaskStatus) :
    ({ db with tasks := db.tasks.map (fun x : TaskRow =>
        if x.id = id then { x with status := s } else x) }).tasks.find?
        (fun x => x.id = id ∧ x.userId = userId) =
      some { t with status := s } := by
  dsimp only
  rw [toggle_tasks_map_find, hf]
  dsimp only [Option.map]
  rw [if_pos htid]

/-- C9: the toggle's dispatch table is the fixed 3-cycle
PENDING → IN_PROGRESS → COMPLETED → PENDING, a bijection on the status
set, and — on a store whose task ids are distinct — applying the toggle
endpoint three times returns the store to exactly its original state. -/
theorem statusCycle_three_cycle (db : DB) (userId id : String)
    (hWF : db.tasks.Pairwise (fun a b => a.id ≠ b.id)) :
    (∀ s, statusCycle (statusCycle (statusCycle s)) = s) ∧
    Function.Bijective statusCycle ∧
    statusCycle TaskStatus.PENDING = TaskStatus.IN_PROGRESS ∧
    statusCycle TaskStatus.IN_PROGRESS = TaskStatus.COMPLETED ∧
    statusCycle TaskStatus.COMPLETED = TaskStatus.PENDING ∧
    toggleState userId id (toggleState userId id
      (toggleState userId id db)) = db := by
  have hcyc : ∀ s, statusCycle (statusCycle (statusCycle s)) = s := by
    intro s
    cases s <;> rfl
  refine ⟨hcyc, ⟨?_, ?_⟩, rfl, rfl, rfl, ?_⟩
  · intro a b hab
    have := congrArg (statusCycle ∘ statusCycle) hab
    simp only [Function.comp_apply] at this
    rw [hcyc a, hcyc b] at this
    exact this
  · intro b
    exact ⟨statusCycle (statusCycle b), hcyc b⟩
  · cases hf : db.tasks.find? (fun x => x.id = id ∧ x.userId = userId) with
    | none =>
      have h1 : toggleState userId id db = db := by
        unfold toggleState toggleTask
        rw [hf]
      rw [h1, h1, h1]
    | some t =>
      have hpt : t.id = id ∧ t.userId = userId := by
        simpa using List.find?_some hf
      have htid : t.id = id := hpt.1
      have hsymm : Symmetric (fun a b : TaskRow => a.id ≠ b.id) := by
        intro a b hab hba
        exact hab hba.symm
      have huniq : ∀ x ∈ db.tasks, x.id = id → x = t := by
        intro x hx hxid
        by_cases hxt : x = t
        · exact hxt
        · exact absurd (by rw [hxid, htid])
            (hWF.forall hsymm hx (List.mem_of_find?_eq_some hf) hxt)
      have e1 := toggleState_found db userId id t hf
      have f1 := toggleState_found_find db userId id t htid hf
        (statusCycle t.status)
      have e2 : toggleState userId id
          { db with tasks := db.tasks.map (fun x : TaskRow =>
              if x.id = id then { x with status := statusCycle t.status }
              else x) } =
          { db with tasks := db.tasks.map (fun x : TaskRow =>
              if x.id = id then
                { x with status := statusCycle (statusCycle t.status) }
              else x) } := by
        have h := toggleState_found _ userId id _ f1
        rw [h]
        dsimp only
        rw [toggle_map_map]
      have f2 := toggleState_found_find db userId id t htid hf
        (statusCycle (statusCycle t.status))
      have e3 : toggleState userId id
          { db with tasks := db.tasks.map (fun x : TaskRow =>
              if x.id = id then
                { x with status := statusCycle (statusCycle t.status) }
              else x) } =
          { db with tasks := db.tasks.map (fun x : TaskRow =>
              if x.id = id then
                { x with status :=
                    statusCycle (statusCycle (statusCycle t.status)) }
              else x) } := by
        have h := toggleState_found _ userId id _ f2
        rw [h]
        dsimp only
        rw [toggle_map_map]
      rw [e1, e2, e3, hcyc t.status]
      have hmapid : db.tasks.map (fun x : TaskRow =>
          if x.id = id then { x with status := t.status } else x) =
          db.tasks := by
        have : ∀ x ∈ db.tasks,
            (if x.id = id then { x with status := t.status } else x) = x := by
          intro x hx
          by_cases hx' : x.id = id
          · have hxe := huniq x hx hx'
            subst hxe
            rw [if_pos hx']
          · rw [if_neg hx']
        calc db.tasks.map (fun x : TaskRow =>
              if x.id = id then { x with status := t.status } else x)
            = db.tasks.map (fun x => x) := List.map_congr_left this
          _ = db.tasks := List.map_id' db.tasks
      rw [hmapid]

/-- Witness for C9 on the one-task store `dbT`. -/
theorem statusCycle_three_cycle_witness :
    dbT.tasks.Pairwise (fun a b => a.id ≠ b.id) ∧
    ((∀ s, statusCycle (statusCycle (statusCycle s)) = s) ∧
     Function.Bijective statusCycle ∧
     statusCycle TaskStatus.PENDING = TaskStatus.IN_PROGRESS ∧
     statusCycle TaskStatus.IN_PROGRESS = TaskStatus.COMPLETED ∧
     statusCycle TaskStatus.COMPLETED = TaskStatus.PENDING ∧
     toggleState uA idT1 (toggleState uA idT1
       (toggleState uA idT1 dbT)) = dbT) :=
  ⟨by decide, statusCycle_three_cycle dbT uA idT1 (by decide)⟩

/-! Client-coordinator invariants. -/

theorem clientInv_step (s : ClientState) (ev : ClientEvent)
    (h : clientInv s) : clientInv (clientStep s ev) := by
  rcases h with ⟨hle, himp⟩
  cases ev with
  | recv401 r =>
    unfold clientStep
    dsimp only
    by_cases hret : r ∈ s.retried
    · rw [if_pos hret]
      exact ⟨hle, himp⟩
    · rw [if_neg hret]
      by_cases href : s.isRefreshing = true
      · rw [if_pos href]
        exact ⟨hle, himp⟩
      · rw [if_neg href]
        have hzero : s.inFlightRefreshCalls = 0 := by
          rcases Nat.lt_or_ge s.inFlightRefreshCalls 1 with h1 | h1
          · omega
          · have : s.inFlightRefreshCalls = 1 := by omega
            exact absurd (himp this) href
        by_cases htok : ¬ s.hasRefreshToken = true
        · rw [if_pos htok]
          exact ⟨hle, fun _ => rfl⟩
        · rw [if_neg htok]
          refine ⟨by dsimp only; omega, fun _ => rfl⟩
  | refreshSuccess tok =>
    unfold clientStep
    dsimp only
    by_cases hz : s.inFlightRefreshCalls = 0
    · rw [if_pos hz]
      exact ⟨hle, himp⟩
    · rw [if_neg hz]
      refine ⟨by dsimp only; omega, fun hcon => ?_⟩
      exfalso
      dsimp only at hcon
      omega
  | refreshFailure =>
    unfold clientStep
    dsimp only
    by_cases hz : s.inFlightRefreshCalls = 0
    · rw [if_pos hz]
      exact ⟨hle, himp⟩
    · rw [if_neg hz]
      refine ⟨by dsimp only; omega, fun hcon => ?_⟩
      exfalso
      dsimp only at hcon
      omega

theorem clientInv_foldl (evs : List ClientEvent) (s : ClientState)
    (h : clientInv s) : clientInv (evs.foldl clientStep s) := by
  induction evs generalizing s with
  | nil => exact h
  | cons ev rest ih => exact ih (clientStep s ev) (clientInv_step s ev h)

theorem clientInv_run (hasTok : Bool) (evs : List ClientEvent) :
    clientInv (runClient hasTok evs) := by
  unfold runClient
  exact clientInv_foldl evs (clientInit hasTok)
    ⟨Nat.zero_le 1, fun h1 => absurd h1 (by simp [clientInit])⟩

/-- C6: single-flight.  In every reachable coordinator state at most one
refresh POST is outstanding; and when one is outstanding, a 401 arriving
for a not-yet-retried request issues no additional refresh call — the
request is queued — and when that single refresh completes with token
`tok`, the queued request is replayed with `tok`. -/
theorem client_single_flight (hasTok : Bool) (evs : List ClientEvent)
    (r : Nat) (tok : String)
    (hin : (runClient hasTok evs).inFlightRefreshCalls = 1)
    (hr : r ∉ (runClient hasTok evs).retried) :
    (∀ evs' : List ClientEvent,
       (runClient hasTok evs').inFlightRefreshCalls ≤ 1) ∧
    (clientStep (runClient hasTok evs)
        (ClientEvent.recv401 r)).refreshCallCount =
      (runClient hasTok evs).refreshCallCount ∧
    (clientStep (runClient hasTok evs)
        (ClientEvent.recv401 r)).failedQueue =
      (runClient hasTok evs).failedQueue ++ [r] ∧
    (r, tok) ∈ (clientStep (clientStep (runClient hasTok evs)
        (ClientEvent.recv401 r))
        (ClientEvent.refreshSuccess tok)).replays := by
  have hinv := clientInv_run hasTok evs
  have href : (runClient hasTok evs).isRefreshing = true := hinv.2 hin
  have hq : clientStep (runClient hasTok evs) (ClientEvent.recv401 r) =
      { runClient hasTok evs with
        failedQueue := (runClient hasTok evs).failedQueue ++ [r] } := by
    unfold clientStep
    dsimp only
    rw [if_neg hr, if_pos href]
  refine ⟨fun evs' => (clientInv_run hasTok evs').1, ?_, ?_, ?_⟩
  · rw [hq]
  · rw [hq]
  · rw [hq]
    unfold clientStep
    dsimp only
    rw [if_neg (by omega)]
    dsimp only
    refine List.mem_append.mpr (Or.inl ?_)
    refine List.mem_append.mpr (Or.inr ?_)
    exact List.mem_map.mpr
      ⟨r, List.mem_append.mpr (Or.inr (List.mem_singleton.mpr rfl)), rfl⟩

/-- Witness for C6: request 0 starts a refresh, request 1 arrives during
it. -/
theorem client_single_flight_witness :
    (runClient true [ClientEvent.recv401 0]).inFlightRefreshCalls = 1 ∧
    1 ∉ (runClient true [ClientEvent.recv401 0]).retried ∧
    ((∀ evs' : List ClientEvent,
        (runClient true evs').inFlightRefreshCalls ≤ 1) ∧
     (clientStep (runClient true [ClientEvent.recv401 0])
         (ClientEvent.recv401 1)).refreshCallCount =
       (runClient true [ClientEvent.recv401 0]).refreshCallCount ∧
     (clientStep (runClient true [ClientEvent.recv401 0])
         (ClientEvent.recv401 1)).failedQueue =
       (runClient true [ClientEvent.recv401 0]).failedQueue ++ [1] ∧
     (1, tokS) ∈ (clientStep (clientStep
         (runClient true [ClientEvent.recv401 0])
         (ClientEvent.recv401 1))
         (ClientEvent.refreshSuccess tokS)).replays) :=
  ⟨by decide, by decide,
   client_single_flight true [ClientEvent.recv401 0] 1 tokS
     (by decide) (by decide)⟩

/-- Counterexample for C7 as stated: in the trace `evs3`, request 1 is
queued during the in-flight refresh and replayed with the new token, yet
its `_retry` flag was never set (only the triggering request 0 got it);
extending the trace with another 401 for request 1 then issues a second
refresh call — an additional refresh cycle that the claimed per-request
flag should have prevented. -/
theorem client_queued_replay_cex :
    (1, tokT) ∈ (runClient true evs3).replays ∧
    1 ∉ (runClient true evs3).retried ∧
    (runClient true (evs3 ++ [ClientEvent.recv401 1])).refreshCallCount =
      2 ∧
    (runClient true evs3).refreshCallCount = 1 := by
  refine ⟨?_, ?_, ?_, ?_⟩ <;> decide

/-- C7 (amended): when the in-flight refresh completes with token `tok`,
every queued request is replayed exactly once with `tok` (the queue is
drained to empty and each entry contributes exactly one replay-log item),
along with the triggering request; but only the triggering request carries
the `_retry` flag, and only flagged requests are protected: a 401 for a
flagged request is a no-op, while a replayed queued request that fails
again re-enters the coordinator and can start or join a further refresh
cycle. -/
theorem client_queued_replay_amended (hasTok : Bool)
    (evs : List ClientEvent) (tok : String)
    (hin : (runClient hasTok evs).inFlightRefreshCalls ≠ 0) :
    (clientStep (runClient hasTok evs)
        (ClientEvent.refreshSuccess tok)).replays =
      (runClient hasTok evs).replays ++
      (runClient hasTok evs).failedQueue.map (fun q => (q, tok)) ++
      ((runClient hasTok evs).pendingTrigger.map
        (fun t => (t, tok))).toList ∧
    (clientStep (runClient hasTok evs)
        (ClientEvent.refreshSuccess tok)).failedQueue = [] ∧
    (∀ r ∈ (runClient hasTok evs).retried,
       clientStep (runClient hasTok evs) (ClientEvent.recv401 r) =
         runClient hasTok evs) := by
  refine ⟨?_, ?_, ?_⟩
  · unfold clientStep
    dsimp only
    rw [if_neg hin]
  · unfold clientStep
    dsimp only
    rw [if_neg hin]
  · intro r hret
    unfold clientStep
    dsimp only
    rw [if_pos hret]

/-- Witness for C7 (amended) after `[recv401 0, recv401 1]`. -/
theorem client_queued_replay_amended_witness :
    (runClient true [ClientEvent.recv401 0,
      ClientEvent.recv401 1]).inFlightRefreshCalls ≠ 0 ∧
    ((clientStep (runClient true [ClientEvent.recv401 0,
         ClientEvent.recv401 1]) (ClientEvent.refreshSuccess tokS)).replays =
       (runClient true [ClientEvent.recv401 0,
         ClientEvent.recv401 1]).replays ++
       (runClient true [ClientEvent.recv401 0,
         ClientEvent.recv401 1]).failedQueue.map (fun q => (q, tokS)) ++
       ((runClient true [ClientEvent.recv401 0,
         ClientEvent.recv401 1]).pendingTrigger.map
           (fun t => (t, tokS))).toList ∧
     (clientStep (runClient true [ClientEvent.recv401 0,
         ClientEvent.recv401 1])
         (ClientEvent.refreshSuccess tokS)).failedQueue = [] ∧
     (∀ r ∈ (runClient true [ClientEvent.recv401 0,
         ClientEvent.recv401 1]).retried,
        clientStep (runClient true [ClientEvent.recv401 0,
          ClientEvent.recv401 1]) (ClientEvent.recv401 r) =
          runClient true [ClientEvent.recv401 0,
            ClientEvent.recv401 1])) :=
  ⟨by decide,
   client_queued_replay_amended true
     [ClientEvent.recv401 0, ClientEvent.recv401 1] tokS (by decide)⟩

end TaskMgmt
